import Mathlib

/-!
Shallow embedding of the Lokomotive (lokoctl) cluster/component
reconciliation core, translated from the Go sources:

* `pkg/platform/platform.go` — `TerraformExecutionStep`, `AppendVersionTag`,
  the `Cluster` contract;
* the cluster-apply driver (`runClusterApply`) — the Terraform execution
  plan loop, the control-plane upgrade selection and the readiness polling
  helper `waitForDeployment`;
* `cli/cmd/component-delete.go` — `deleteHelmRelease`, `deleteNS`;
* `cli/cmd/utils.go` and `cli/cmd/cluster.go` — kubeconfig path resolution;
* `pkg/platform/aks/aks.go` — the AKS configuration, its validation checks
  and root-module rendering;
* `pkg/k8sutil/create.go` — `UpdateNamespace`.

External collaborators (the Terraform binary, the Helm SDK and the
Kubernetes API) are modelled by explicit state values and outcome streams;
machine integers that can be negative (Go `int`) are modelled as `Int`,
counts that the Kubernetes API reports as non-negative as `Nat`.
-/

/-- Association-list model of a Go `map[string]string`. Maps obtained from
real Go maps have unique keys; a lookup returns the first matching entry. -/
abbrev StrMap := List (String × String)

/-- Lookup in a `StrMap` (Go `v, ok := m[k]`, `none` when the key is absent). -/
def mapGet : StrMap → String → Option String
  | [], _ => none
  | (k', v) :: t, k => if k' = k then some v else mapGet t k

/-- Key assignment in a `StrMap` (Go `m[k] = v`): replaces the first entry
carrying the key, appends when the key is absent. -/
def mapSet : StrMap → String → String → StrMap
  | [], k, v => [(k, v)]
  | (k', v') :: t, k, v => if k' = k then (k, v) :: t else (k', v') :: mapSet t k v

/-- Copying every entry of `over` into `base`, in order (the Go loop
`for k, v := range over { base[k] = v }`). -/
def mapMerge (base over : StrMap) : StrMap :=
  over.foldl (fun acc kv => mapSet acc kv.1 kv.2) base

namespace terraform

/-- The executor contract the orchestration layer requires from the
reconciliation tool (`terraform.Executor`): `Execute(args...)` either
succeeds or fails with an error message. -/
structure Executor where
  execute : List String → Except String Unit

end terraform

namespace platform

/-- `TerraformExecutionStep` from `pkg/platform/platform.go`: a description,
the argument list for the `terraform` command, and an optional hook run
before the command. -/
structure TerraformExecutionStep where
  Description : String
  Args : List String
  PreExecutionHook : Option (terraform.Executor → Except String Unit) := none

/-- `CommonControlPlaneCharts` from `pkg/platform/platform.go`. -/
def CommonControlPlaneCharts : List String :=
  ["calico", "kube-apiserver", "kubernetes", "pod-checkpointer"]

/-- `AppendVersionTag` from `pkg/platform/platform.go`: when the build
version is non-empty, sets the `lokoctl-version` tag in the tags map
(a nil Go map is modelled by the empty list). -/
def AppendVersionTag (version : String) (tags : StrMap) : StrMap :=
  if version = "" then tags else mapSet tags "lokoctl-version" version

end platform

namespace cmd

/-- Replica counts of a Deployment as observed from its status
(the `deploy.Status.Replicas` and `deploy.Status.AvailableReplicas` fields
read by `waitForDeployment`); the counts the Kubernetes API reports are
non-negative. -/
structure DeploymentStatus where
  replicas : Nat
  availableReplicas : Nat
deriving DecidableEq, Repr

/-- Result of one `Deployments(ns).Get` call during readiness polling. -/
inductive GetResult
  | notFound
  | apiError (e : String)
  | ok (d : DeploymentStatus)
deriving DecidableEq, Repr

/-- The condition closure `waitForDeployment` passes to
`wait.PollImmediate`: a missing Deployment means keep waiting; any other
API error aborts the poll; zero scheduled replicas means not ready; ready
exactly when the available replica count equals the scheduled count. -/
def waitCondition : GetResult → Except String Bool
  | GetResult.notFound => Except.ok false
  | GetResult.apiError e => Except.error e
  | GetResult.ok d =>
    if d.replicas = 0 then Except.ok false
    else if d.availableReplicas = d.replicas then Except.ok true
    else Except.ok false

/-- `wait.PollImmediate` (k8s.io/apimachinery): evaluates the condition
immediately and then once per retry interval until the deadline elapses,
then fails with the timeout error. Modelled with the number of remaining
condition evaluations as fuel, over the stream of condition results
indexed by evaluation number. -/
def pollImmediate : Nat → (Nat → Except String Bool) → Except String Unit
  | 0, _ => Except.error "timed out waiting for the condition"
  | n + 1, cond =>
    match cond 0 with
    | Except.error e => Except.error e
    | Except.ok true => Except.ok ()
    | Except.ok false => pollImmediate n (fun i => cond (i + 1))

/-- The readiness poll of `waitForDeployment`: `wait.PollImmediate` applied
to the condition above over the stream of observed Deployment states. -/
def waitForDeployment (fuel : Nat) (obs : Nat → GetResult) : Except String Unit :=
  pollImmediate fuel (fun i => waitCondition (obs i))

/-- Error classes returned by the external Helm / Kubernetes API calls:
`notFound` is the absence class (no release history for a name, or no such
namespace), `other` is every other failure, for example an unreachable API
server. -/
inductive ApiErr
  | notFound
  | other (msg : String)
deriving DecidableEq, Repr

/-- State of the external Helm releases and Kubernetes namespaces that the
component lifecycle operations act on. `apiFailing` models an unreachable
API server, in which case queries fail with an `other`-class error. -/
structure HelmEnv where
  releases : List String
  namespaces : List String
  apiFailing : Bool := false
deriving DecidableEq, Repr

/-- `action.NewHistory(cfg)` followed by `.Run(name)` — the release-history
query: fails with a non-absence error when the API server is unreachable,
fails with the absence error when `name` has no release history, and
succeeds otherwise. -/
def historyRun (env : HelmEnv) (name : String) : Except ApiErr Unit :=
  if env.apiFailing then Except.error (ApiErr.other "Kubernetes cluster unreachable")
  else if name ∈ env.releases then Except.ok ()
  else Except.error ApiErr.notFound

/-- `action.NewUninstall(cfg)` followed by `.Run(name)` — modelled as the
successful case: all release history for `name` is removed. -/
def uninstallRun (env : HelmEnv) (name : String) : HelmEnv :=
  { env with releases := env.releases.filter (fun r => r ≠ name) }

/-- `Namespaces().Delete` of the Kubernetes API: deleting an absent
namespace yields the not-found error class. -/
def namespacesDelete (env : HelmEnv) (ns : String) : Except ApiErr HelmEnv :=
  if ns ∈ env.namespaces then
    Except.ok { env with namespaces := env.namespaces.filter (fun n => n ≠ ns) }
  else Except.error ApiErr.notFound

/-- `deleteNS` from `cli/cmd/component-delete.go`: deletes the namespace,
treating the not-found error as success and surfacing any other error. -/
def deleteNS (env : HelmEnv) (ns : String) : Except String HelmEnv :=
  match namespacesDelete env ns with
  | Except.ok envNew => Except.ok envNew
  | Except.error ApiErr.notFound => Except.ok env
  | Except.error (ApiErr.other e) => Except.error e

/-- Outcome of `deleteHelmRelease`: a Go panic, an error return, or a nil
(success) return; `uninstallInvoked` records whether `uninstall.Run` was
called during the operation. -/
inductive DeleteOutcome
  | panicked (msg : String)
  | failed (msg : String)
  | ok (env : HelmEnv) (uninstallInvoked : Bool)
deriving DecidableEq, Repr

/-- `deleteHelmRelease` from `cli/cmd/component-delete.go`: panics on an
empty component name or namespace; queries the release history and runs
`uninstall` only when the history query returned a nil error — on ANY
history error the uninstall is skipped and the operation proceeds as
success; finally, when requested, deletes the namespace via `deleteNS`. -/
def deleteHelmRelease (env : HelmEnv) (name ns : String) (deleteNSBool : Bool) :
    DeleteOutcome :=
  if name = "" then DeleteOutcome.panicked "component name is empty"
  else if ns = "" then DeleteOutcome.panicked ("component " ++ name ++ " namespace is empty")
  else
    let afterUninstall : HelmEnv × Bool :=
      match historyRun env name with
      | Except.ok _ => (uninstallRun env name, true)
      | Except.error _ => (env, false)
    if deleteNSBool then
      match deleteNS afterUninstall.1 ns with
      | Except.ok envFinal => DeleteOutcome.ok envFinal afterUninstall.2
      | Except.error e => DeleteOutcome.failed e
    else DeleteOutcome.ok afterUninstall.1 afterUninstall.2

/-- Modelled from the spec: `util.ReleaseExists` (package
`pkg/components/util`, whose source is not among the provided files) —
queries the release history for the name; only the absence-of-history
error class is interpreted as "does not exist", any other error is
surfaced. This is the existence probe of the control-plane upgrade path
(`upgradeComponent` in `cli/cmd/cluster.go`). -/
def ReleaseExists (env : HelmEnv) (name : String) : Except ApiErr Bool :=
  match historyRun env name with
  | Except.ok _ => Except.ok true
  | Except.error ApiErr.notFound => Except.ok false
  | Except.error e => Except.error e

/-- The release-selection loop of the control-plane upgrade phase of
`runClusterApply`: iterates the ordered control-plane chart list, skipping
a "kubelet" entry unless the experimental upgrade-kubelets flag is set. -/
def controlplaneReleases : List String → Bool → List String
  | [], _ => []
  | r :: rest, upgradeKubelets =>
    if r = "kubelet" ∧ upgradeKubelets = false then controlplaneReleases rest upgradeKubelets
    else r :: controlplaneReleases rest upgradeKubelets

/-- The control-plane upgrade phase of `runClusterApply`: upgrades are
performed only when the cluster already existed before the run and the
platform is not managed; in that case the selected releases are upgraded
in the order of the chart list. Returns the ordered list of charts that
get upgraded. -/
def controlplaneUpgrades (clusterExisted managed : Bool) (charts : List String)
    (upgradeKubelets : Bool) : List String :=
  if clusterExisted = true ∧ managed = false then controlplaneReleases charts upgradeKubelets
  else []

/-- `defaultKubeconfigPath` from `cli/cmd` — the default path kubectl
uses. -/
def defaultKubeconfigPath : String := "~/.kube/config"

/-- `pickString` from `cli/cmd/utils.go`: the first non-empty string among
the options, or the empty string. -/
def pickString : List String → String
  | [] => ""
  | o :: rest => if o ≠ "" then o else pickString rest

/-- `assetsKubeconfig` from `cli/cmd/utils.go`:
`filepath.Join(assetDir, "cluster-assets", "auth", "kubeconfig")`. -/
def assetsKubeconfig (assetDir : String) : String :=
  assetDir ++ "/cluster-assets/auth/kubeconfig"

/-- `assetsKubeconfigPath` from `cli/cmd/utils.go`: the kubeconfig path
inside the asset directory, or the empty string when no asset directory is
configured. -/
def assetsKubeconfigPath (assetDir : String) : String :=
  if assetDir ≠ "" then assetsKubeconfig assetDir else ""

/-- `getKubeconfig` from `cli/cmd/utils.go` (the identically resolving
`kubeconfigPath` of `cli/cmd/cluster.go` folds `assetsKubeconfigPath` in
line): picks the first non-empty candidate among the kubeconfig-file flag
value, the asset-directory kubeconfig path, the KUBECONFIG environment
variable and the default path, then best-effort tilde-expands it. The
expansion (`homedir.Expand`, an external library) is a parameter. -/
def getKubeconfig (expand : String → String) (flagValue assetDir envValue : String) :
    String :=
  expand (pickString [flagValue, assetsKubeconfigPath assetDir, envValue,
    defaultKubeconfigPath])

end cmd

namespace hcl

/-- An `hcl.Diagnostic` of error severity: its summary and detail strings
(the severity field is always the error severity in the embedded checks
and is omitted). -/
structure Diagnostic where
  Summary : String
  Detail : String := ""
deriving DecidableEq, Repr

end hcl

namespace aks

/-- The `worker_pool` block of the AKS platform configuration
(`pkg/platform/aks/aks.go`); the Go `int` count is modelled as `Int`. -/
structure workerPool where
  Name : String
  Count : Int := 0
  VMSize : String := ""
  Labels : StrMap := []
  Taints : List String := []
deriving DecidableEq, Repr

/-- The AKS platform `Config` from `pkg/platform/aks/aks.go`, with its
default values from `NewConfig`. -/
structure Config where
  AssetDir : String := ""
  ClusterName : String := ""
  Tags : StrMap := []
  TenantID : String := ""
  SubscriptionID : String := ""
  ClientID : String := ""
  ClientSecret : String := ""
  Location : String := "West Europe"
  ApplicationName : String := ""
  ResourceGroupName : String := ""
  ManageResourceGroup : Bool := true
  WorkerPools : List workerPool := []
  KubernetesVersion : String := "1.16.10"
deriving DecidableEq, Repr

/-- Names of the environment variables consulted by the AKS checks. -/
def clientIDEnv : String := "LOKOMOTIVE_AKS_CLIENT_ID"

/-- Environment variable for the AKS client secret. -/
def clientSecretEnv : String := "LOKOMOTIVE_AKS_CLIENT_SECRET"

/-- Environment variable for the AKS subscription ID. -/
def subscriptionIDEnv : String := "LOKOMOTIVE_AKS_SUBSCRIPTION_ID"

/-- Environment variable for the AKS tenant ID. -/
def tenantIDEnv : String := "LOKOMOTIVE_AKS_TENANT_ID"

/-- The diagnostic `checkWorkerPoolNamesUnique` emits for a repeated
occurrence of a worker pool name. -/
def duplicatedDiag (name : String) : hcl.Diagnostic :=
  { Summary := "Worker pool names should be unique"
    Detail := "Worker pool \x27" ++ name ++ "\x27 is duplicated" }

/-- The repeated occurrences among a list of names: relative to an
accumulator of already-seen names, each occurrence of a name after its
first is kept, first occurrences are only recorded. -/
def laterDuplicates (seen : List String) : List String → List String
  | [] => []
  | x :: rest =>
    if x ∈ seen then x :: laterDuplicates seen rest
    else laterDuplicates (x :: seen) rest

/-- The loop of `checkWorkerPoolNamesUnique` over the worker pools, with
the set of already-seen names (the Go `dup` map) as accumulator: a name
seen before produces a diagnostic, a fresh name is recorded and produces
none. -/
def checkNamesUniqueLoop (dup : List String) : List workerPool → List hcl.Diagnostic
  | [] => []
  | w :: rest =>
    if w.Name ∈ dup then duplicatedDiag w.Name :: checkNamesUniqueLoop dup rest
    else checkNamesUniqueLoop (w.Name :: dup) rest

/-- `checkWorkerPoolNamesUnique` from `pkg/platform/aks/aks.go`. -/
def checkWorkerPoolNamesUnique (c : Config) : List hcl.Diagnostic :=
  checkNamesUniqueLoop [] c.WorkerPools

/-- The diagnostic `checkWorkerPools` emits for a non-positive pool count
(Go `fmt.Sprintf("pool %q: count must be bigger than 0", w.Name)`). -/
def countDiag (name : String) : hcl.Diagnostic :=
  { Summary := "pool \x22" ++ name ++ "\x22: count must be bigger than 0" }

/-- The diagnostic `checkWorkerPools` emits for an empty VM size. -/
def vmSizeDiag (name : String) : hcl.Diagnostic :=
  { Summary := "pool \x22" ++ name ++ "\x22: VMSize field can\x27t be empty" }

/-- The loop of `checkWorkerPools` over the worker pools: per pool, a
diagnostic for an empty VM size and one for a non-positive count. -/
def checkWorkerPoolsLoop : List workerPool → List hcl.Diagnostic
  | [] => []
  | w :: rest =>
    (if w.VMSize = "" then [vmSizeDiag w.Name] else []) ++
    (if w.Count ≤ 0 then [countDiag w.Name] else []) ++
    checkWorkerPoolsLoop rest

/-- `checkWorkerPools` from `pkg/platform/aks/aks.go`. -/
def checkWorkerPools (c : Config) : List hcl.Diagnostic :=
  checkWorkerPoolsLoop c.WorkerPools

/-- `checkNotEmptyWorkers` from `pkg/platform/aks/aks.go`. -/
def checkNotEmptyWorkers (c : Config) : List hcl.Diagnostic :=
  if c.WorkerPools.isEmpty then
    [{ Summary := "At least one worker pool must be defined"
       Detail := "Make sure to define at least one worker pool block in your cluster block" }]
  else []

/-- `checkCredentials` from `pkg/platform/aks/aks.go`; `env` models
`os.Getenv` (absent variables are the empty string). -/
def checkCredentials (env : String → String) (c : Config) : List hcl.Diagnostic :=
  if c.ApplicationName ≠ "" then
    (if c.ClientID ≠ "" then
      [{ Summary := "ClientID and ApplicationName are mutually exclusive" }] else []) ++
    (if c.ClientSecret ≠ "" then
      [{ Summary := "ClientSecret and ApplicationName are mutually exclusive" }] else [])
  else
    (if c.ClientSecret = "" ∧ env clientSecretEnv = "" then
      [{ Summary := "cannot find the Azure client secret"
         Detail := "\x22ClientSecret\x22 field is empty and \x22" ++ clientSecretEnv ++
           "\x22 environment variable is not defined. At least one of these should be defined" }]
     else []) ++
    (if c.ClientID = "" ∧ env clientIDEnv = "" then
      [{ Summary := "cannot find the Azure client ID"
         Detail := "\x22ClientID\x22 field is empty and \x22" ++ clientIDEnv ++
           "\x22 environment variable is not defined. At least one of these should be defined" }]
     else [])

/-- The loop over the required-fields map of `checkRequiredFields`
(`AssetDir`, `ClusterName`, `ResourceGroupName`); the Go map iteration
order is unspecified, the source declaration order is used here. -/
def requiredFieldDiags : List (String × String) → List hcl.Diagnostic
  | [] => []
  | (k, v) :: rest =>
    (if v = "" then [{ Summary := "field \x22" ++ k ++ "\x22 can\x27t be empty" }] else []) ++
    requiredFieldDiags rest

/-- `checkRequiredFields` from `pkg/platform/aks/aks.go`. -/
def checkRequiredFields (env : String → String) (c : Config) : List hcl.Diagnostic :=
  (if c.SubscriptionID = "" ∧ env subscriptionIDEnv = "" then
    [{ Summary := "cannot find the Azure subscription ID"
       Detail := "\x22SubscriptionID\x22 field is empty and \x22" ++ subscriptionIDEnv ++
         "\x22 environment variable is not defined. At least one of these should be defined" }]
   else []) ++
  (if c.TenantID = "" ∧ env tenantIDEnv = "" then
    [{ Summary := "cannot find the Azure client ID"
       Detail := "\x22TenantID\x22 field is empty and \x22" ++ tenantIDEnv ++
         "\x22 environment variable is not defined. At least one of these should be defined" }]
   else []) ++
  requiredFieldDiags
    [("AssetDir", c.AssetDir), ("ClusterName", c.ClusterName),
      ("ResourceGroupName", c.ResourceGroupName)]

/-- `validate` from `pkg/platform/aks/aks.go`: the aggregated diagnostics
of all checks, in order. -/
def validate (env : String → String) (c : Config) : List hcl.Diagnostic :=
  checkNotEmptyWorkers c ++ checkWorkerPoolNamesUnique c ++ checkWorkerPools c ++
    checkCredentials env c ++ checkRequiredFields env c

/-- `renderRootModule` from `pkg/platform/aks/aks.go`: appends the
lokoctl-version tag to the Tags map of the configuration (mutating it in
place in Go — the mutated configuration is returned alongside the output)
and executes the root-module template on the result. The template content
(`terraformConfigTmpl`) is not among the provided sources and Go template
execution is deterministic, so the renderer is a function parameter. -/
def renderRootModule (tmpl : Config → String) (version : String) (conf : Config) :
    Config × String :=
  let confTagged := { conf with Tags := platform.AppendVersionTag version conf.Tags }
  (confTagged, tmpl confTagged)

/-- The AKS `Cluster` from `pkg/platform/aks/aks.go`: the validated
configuration and the rendered root module, immutable once constructed. -/
structure Cluster where
  config : Config
  rootModule : String
deriving Repr

/-- `NewCluster` from `pkg/platform/aks/aks.go`: renders the root module
once and stores the result. -/
def NewCluster (tmpl : Config → String) (version : String) (c : Config) : Cluster :=
  let p := renderRootModule tmpl version c
  { config := p.1, rootModule := p.2 }

/-- `TerraformRootModule` of the AKS cluster: returns the stored rendered
root module. -/
def TerraformRootModule (c : Cluster) : String := c.rootModule

/-- `Managed` of the AKS cluster: AKS is a managed platform. -/
def Managed (_ : Cluster) : Bool := true

/-- `ControlPlaneCharts` of the AKS cluster: empty, AKS does not use the
Lokomotive control plane. -/
def ControlPlaneCharts (_ : Cluster) : List String := []

/-- `TerraformExecutionPlan` of the AKS cluster: a single apply step. -/
def TerraformExecutionPlan (_ : Cluster) : List platform.TerraformExecutionStep :=
  [{ Description := "Create infrastructure", Args := ["apply", "-auto-approve"] }]

end aks

namespace k8sutil

/-- The Lokomotive-specific namespace metadata (`k8sutil.Namespace`). -/
structure LokoNamespace where
  Name : String
  Labels : StrMap := []
  Annotations : StrMap := []
deriving DecidableEq, Repr

/-- Whether a metadata key is owned by Lokomotive:
Go `strings.Contains(key, "lokomotive.kinvolk.io")`. -/
def containsLoko (key : String) : Bool :=
  decide ("lokomotive.kinvolk.io".data <:+: key.data)

/-- The deletion loop of `UpdateNamespace`: drops every entry whose key
contains the Lokomotive prefix. -/
def filterLoko (m : StrMap) : StrMap :=
  m.filter (fun kv => !(containsLoko kv.1))

/-- `UpdateNamespace` from `pkg/k8sutil/create.go`, with the API calls made
explicit: given the Lokomotive-supplied namespace metadata and the
namespace object read from the cluster, it fails on an empty name,
otherwise deletes the Lokomotive-owned keys from the existing labels and
annotations and copies the remaining existing entries over the supplied
maps, then updates the namespace object with the merged metadata. -/
def UpdateNamespace (ns existing : LokoNamespace) : Except String LokoNamespace :=
  if ns.Name = "" then Except.error "namespace name can\x27t be empty"
  else
    Except.ok
      { Name := ns.Name
        Labels := mapMerge ns.Labels (filterLoko existing.Labels)
        Annotations := mapMerge ns.Annotations (filterLoko existing.Annotations) }

end k8sutil

namespace cmd

end cmd

namespace cmd

theorem pollImmediate_never_ready (n : Nat) (cond : Nat → Except String Bool)
    (h : ∀ i, cond i ≠ Except.ok true) :
    pollImmediate n cond ≠ Except.ok () := by
  induction n generalizing cond with
  | zero => simp [pollImmediate]
  | succ n ih =>
    simp only [pollImmediate]
    cases hc : cond 0 with
    | error e => simp
    | ok b =>
      cases b with
      | true => exact absurd hc (h 0)
      | false => exact ih (fun i => cond (i + 1)) (fun i => h (i + 1))

theorem pollImmediate_timeout (n : Nat) (cond : Nat → Except String Bool)
    (h : ∀ i, cond i = Except.ok false) :
    pollImmediate n cond = Except.error "timed out waiting for the condition" := by
  induction n generalizing cond with
  | zero => simp [pollImmediate]
  | succ n ih =>
    simp only [pollImmediate, h 0]
    exact ih (fun i => cond (i + 1)) (fun i => h (i + 1))

end cmd

/-- C2: the readiness condition holds for an observed Deployment exactly
when the available replica count equals the scheduled count and the
scheduled count is positive; with zero scheduled replicas the condition
never reports ready, whatever the available count (including zero); and
when the condition never holds before the deadline, the poll never reports
ready and, in the absence of query errors, returns the descriptive timeout
error. -/
theorem waitForDeployment_readiness :
    (∀ d : cmd.DeploymentStatus,
      cmd.waitCondition (cmd.GetResult.ok d) = Except.ok true ↔
        (d.availableReplicas = d.replicas ∧ 0 < d.replicas)) ∧
    (∀ a : Nat, cmd.waitCondition (cmd.GetResult.ok ⟨0, a⟩) = Except.ok false) ∧
    (∀ (fuel : Nat) (obs : Nat → cmd.GetResult),
      (∀ i, cmd.waitCondition (obs i) ≠ Except.ok true) →
      cmd.waitForDeployment fuel obs ≠ Except.ok ()) ∧
    (∀ (fuel : Nat) (obs : Nat → cmd.GetResult),
      (∀ i, cmd.waitCondition (obs i) = Except.ok false) →
      cmd.waitForDeployment fuel obs =
        Except.error "timed out waiting for the condition") := by
  refine ⟨fun d => ?_, fun a => ?_, fun fuel obs h => ?_, fun fuel obs h => ?_⟩
  · obtain ⟨r, a⟩ := d
    simp only [cmd.waitCondition]
    split_ifs with h1 h2 <;> (simp_all; try omega)
  · simp [cmd.waitCondition]
  · exact cmd.pollImmediate_never_ready fuel _ (fun i => h i)
  · exact cmd.pollImmediate_timeout fuel _ (fun i => h i)

/-- Witness for C2: a Deployment stuck at zero scheduled replicas (and zero
available replicas) is never reported ready, and the poll ends in the
descriptive timeout error. -/
theorem waitForDeployment_readiness_witness :
    cmd.waitForDeployment 3 (fun _ => cmd.GetResult.ok ⟨0, 0⟩) =
      Except.error "timed out waiting for the condition" :=
  waitForDeployment_readiness.2.2.2 3 (fun _ => cmd.GetResult.ok ⟨0, 0⟩) (fun _ => rfl)

/-- C3: component deletion is idempotent — when no release history exists
for the name, `deleteHelmRelease` returns success without invoking
uninstall; when namespace deletion is requested and the namespace is
absent, the call still returns success; and after any successful delete a
second delete of the same name returns success without invoking
uninstall. -/
theorem componentDelete_idempotent (env : cmd.HelmEnv) (name ns : String)
    (hname : name ≠ "") (hns : ns ≠ "") (hapi : env.apiFailing = false) :
    (name ∉ env.releases →
      cmd.deleteHelmRelease env name ns false = cmd.DeleteOutcome.ok env false) ∧
    (name ∉ env.releases → ns ∉ env.namespaces →
      cmd.deleteHelmRelease env name ns true = cmd.DeleteOutcome.ok env false) ∧
    (∀ (envAfter : cmd.HelmEnv) (inv : Bool),
      cmd.deleteHelmRelease env name ns false = cmd.DeleteOutcome.ok envAfter inv →
      cmd.deleteHelmRelease envAfter name ns false =
        cmd.DeleteOutcome.ok envAfter false) := by
  refine ⟨fun h => ?_, fun h hns2 => ?_, fun envAfter inv hEq => ?_⟩
  · simp [cmd.deleteHelmRelease, cmd.historyRun, hname, hns, hapi, h]
  · simp [cmd.deleteHelmRelease, cmd.historyRun, cmd.deleteNS, cmd.namespacesDelete,
      hname, hns, hapi, h, hns2]
  · by_cases hmem : name ∈ env.releases
    · have h1 : cmd.deleteHelmRelease env name ns false =
          cmd.DeleteOutcome.ok (cmd.uninstallRun env name) true := by
        simp [cmd.deleteHelmRelease, cmd.historyRun, hname, hns, hapi, hmem]
      rw [h1] at hEq
      cases hEq
      simp [cmd.deleteHelmRelease, cmd.historyRun, cmd.uninstallRun, hname, hns, hapi]
    · have h1 : cmd.deleteHelmRelease env name ns false =
          cmd.DeleteOutcome.ok env false := by
        simp [cmd.deleteHelmRelease, cmd.historyRun, hname, hns, hapi, hmem]
      rw [h1] at hEq
      cases hEq
      simp [cmd.deleteHelmRelease, cmd.historyRun, hname, hns, hapi, hmem]

/-- Witness for C3: deleting a component with no release history returns
success and does not invoke uninstall. -/
theorem componentDelete_idempotent_witness :
    cmd.deleteHelmRelease ⟨[], [], false⟩ "external-dns" "external-dns" false =
      cmd.DeleteOutcome.ok ⟨[], [], false⟩ false :=
  (componentDelete_idempotent ⟨[], [], false⟩ "external-dns" "external-dns"
    (by decide) (by decide) rfl).1 (by simp)

/-- Counterexample for C4: during delete, a release-history probe that
fails with a NON-absence error (an unreachable API server) is nonetheless
treated as "does not exist" — `deleteHelmRelease` skips the uninstall and
returns success instead of surfacing the error, even though the release is
present. -/
theorem releaseProbe_error_swallowed :
    cmd.historyRun ⟨["prometheus-operator"], [], true⟩ "prometheus-operator" =
      Except.error (cmd.ApiErr.other "Kubernetes cluster unreachable") ∧
    cmd.deleteHelmRelease ⟨["prometheus-operator"], [], true⟩ "prometheus-operator"
      "monitoring" false =
      cmd.DeleteOutcome.ok ⟨["prometheus-operator"], [], true⟩ false := by
  constructor
  · rfl
  · rfl

/-- C4 as amended: the existence probe of the control-plane upgrade path
(`ReleaseExists`) interprets only the absence-of-history error class as
"does not exist" and surfaces every other error; the delete path, by
contrast, treats EVERY error of the release-history query as "does not
exist", skips the uninstall and reports success without surfacing the
error. -/
theorem releaseProbe_amended (env : cmd.HelmEnv) (name ns : String)
    (hname : name ≠ "") (hns : ns ≠ "") :
    (env.apiFailing = false →
      cmd.ReleaseExists env name = Except.ok (decide (name ∈ env.releases))) ∧
    (env.apiFailing = true →
      cmd.ReleaseExists env name =
        Except.error (cmd.ApiErr.other "Kubernetes cluster unreachable")) ∧
    (∀ e, cmd.historyRun env name = Except.error e →
      cmd.deleteHelmRelease env name ns false = cmd.DeleteOutcome.ok env false) := by
  refine ⟨fun hapi => ?_, fun hapi => ?_, fun e he => ?_⟩
  · by_cases hm : name ∈ env.releases <;>
      simp [cmd.ReleaseExists, cmd.historyRun, hapi, hm]
  · simp [cmd.ReleaseExists, cmd.historyRun, hapi]
  · simp [cmd.deleteHelmRelease, hname, hns, he]

/-- Witness for C4 (amended): with the API server unreachable, the upgrade
path existence probe surfaces the non-absence error instead of reporting
"not installed". -/
theorem releaseProbe_amended_witness :
    cmd.ReleaseExists ⟨["metallb"], [], true⟩ "metallb" =
      Except.error (cmd.ApiErr.other "Kubernetes cluster unreachable") :=
  (releaseProbe_amended ⟨["metallb"], [], true⟩ "metallb" "metallb"
    (by decide) (by decide)).2.1 rfl

theorem mapSet_idem (m : StrMap) (k v : String) :
    mapSet (mapSet m k v) k v = mapSet m k v := by
  induction m with
  | nil => simp [mapSet]
  | cons kv t ih =>
    obtain ⟨k', v'⟩ := kv
    by_cases h : k' = k
    · subst h; simp [mapSet]
    · simp [mapSet, h, ih]

theorem appendVersionTag_idem (version : String) (tags : StrMap) :
    platform.AppendVersionTag version (platform.AppendVersionTag version tags) =
      platform.AppendVersionTag version tags := by
  by_cases h : version = "" <;> simp [platform.AppendVersionTag, h, mapSet_idem]

/-- C5: `TerraformRootModule` is a pure accessor of the rendered module,
and rendering is deterministic given the configuration: re-constructing a
Cluster from the configuration held by an existing Cluster (the
configuration that rendering mutated in place by appending the
lokoctl-version tag) leaves the configuration unchanged and yields
byte-identical root-module output. -/
theorem terraformRootModule_deterministic (tmpl : aks.Config → String)
    (version : String) (conf : aks.Config) :
    (∀ c : aks.Cluster, aks.TerraformRootModule c = c.rootModule) ∧
    (aks.NewCluster tmpl version ((aks.NewCluster tmpl version conf).config)).config =
      (aks.NewCluster tmpl version conf).config ∧
    aks.TerraformRootModule
        (aks.NewCluster tmpl version ((aks.NewCluster tmpl version conf).config)) =
      aks.TerraformRootModule (aks.NewCluster tmpl version conf) := by
  have hconf :
      (aks.NewCluster tmpl version ((aks.NewCluster tmpl version conf).config)).config =
        (aks.NewCluster tmpl version conf).config := by
    simp [aks.NewCluster, aks.renderRootModule, appendVersionTag_idem]
  refine ⟨fun c => rfl, hconf, ?_⟩
  show tmpl _ = tmpl _
  exact congrArg tmpl hconf

theorem controlplaneReleases_eq (charts : List String) (uk : Bool) :
    cmd.controlplaneReleases charts uk =
      charts.filter (fun r => !(r == "kubelet" && !uk)) := by
  induction charts with
  | nil => rfl
  | cons x rest ih =>
    simp only [cmd.controlplaneReleases, List.filter_cons]
    by_cases hx : x = "kubelet"
    · subst hx
      cases uk <;> simp [ih]
    · simp [hx, ih]

/-- C6: control-plane chart upgrades happen exactly when the cluster
pre-existed and the platform is not managed; the upgraded releases are the
ordered chart list with a "kubelet" entry skipped unless the experimental
upgrade-kubelets flag is set; and an AKS cluster (a managed platform)
never gets control-plane upgrades. -/
theorem controlplaneUpgrade_condition (clusterExisted managed upgradeKubelets : Bool)
    (charts : List String) :
    (¬(clusterExisted = true ∧ managed = false) →
      cmd.controlplaneUpgrades clusterExisted managed charts upgradeKubelets = []) ∧
    (clusterExisted = true → managed = false →
      (cmd.controlplaneUpgrades clusterExisted managed charts upgradeKubelets).Sublist
        charts ∧
      (∀ r, r ∈ cmd.controlplaneUpgrades clusterExisted managed charts upgradeKubelets ↔
        (r ∈ charts ∧ (r = "kubelet" → upgradeKubelets = true)))) ∧
    (∀ c : aks.Cluster,
      cmd.controlplaneUpgrades clusterExisted (aks.Managed c) charts upgradeKubelets
        = []) := by
  refine ⟨fun h => ?_, fun he hm => ⟨?_, fun r => ?_⟩, fun c => ?_⟩
  · simp only [cmd.controlplaneUpgrades]
    rw [if_neg h]
  · simp only [cmd.controlplaneUpgrades, if_pos (And.intro he hm),
      controlplaneReleases_eq]
    exact List.filter_sublist charts
  · simp only [cmd.controlplaneUpgrades, if_pos (And.intro he hm),
      controlplaneReleases_eq, List.mem_filter]
    constructor
    · rintro ⟨hmem, hcond⟩
      refine ⟨hmem, fun hrk => ?_⟩
      subst hrk
      cases upgradeKubelets with
      | false => simp at hcond
      | true => rfl
    · rintro ⟨hmem, hcond⟩
      refine ⟨hmem, ?_⟩
      by_cases hrk : r = "kubelet"
      · subst hrk
        simp [hcond rfl]
      · simp [hrk]
  · simp [cmd.controlplaneUpgrades, aks.Managed]

/-- Witness for C6: with the cluster pre-existing, an unmanaged platform
and the flag unset, the upgraded releases form a sublist of the chart list
and "kubelet" is skipped. -/
theorem controlplaneUpgrade_condition_witness :
    (cmd.controlplaneUpgrades true false ["calico", "kubelet"] false).Sublist
      ["calico", "kubelet"] ∧
    ("kubelet" ∈ cmd.controlplaneUpgrades true false ["calico", "kubelet"] false →
      False) :=
  ⟨((controlplaneUpgrade_condition true false false ["calico", "kubelet"]).2.1
      rfl rfl).1,
    fun hmem => by
      have h := (((controlplaneUpgrade_condition true false false
        ["calico", "kubelet"]).2.1 rfl rfl).2 "kubelet").mp hmem
      exact Bool.false_ne_true (h.2 rfl)⟩

theorem checkNamesUniqueLoop_eq (dup : List String) (pools : List aks.workerPool) :
    aks.checkNamesUniqueLoop dup pools =
      (aks.laterDuplicates dup (pools.map aks.workerPool.Name)).map aks.duplicatedDiag := by
  induction pools generalizing dup with
  | nil => rfl
  | cons w rest ih =>
    simp only [aks.checkNamesUniqueLoop, List.map_cons, aks.laterDuplicates]
    by_cases h : w.Name ∈ dup
    · rw [if_pos h, if_pos h, List.map_cons, ih dup]
    · rw [if_neg h, if_neg h, ih (w.Name :: dup)]

theorem laterDuplicates_count (n : String) (seen names : List String) :
    (aks.laterDuplicates seen names).count n =
      if n ∈ seen then names.count n else names.count n - 1 := by
  induction names generalizing seen with
  | nil => simp [aks.laterDuplicates]
  | cons x rest ih =>
    simp only [aks.laterDuplicates]
    by_cases hx : x ∈ seen
    · rw [if_pos hx]
      by_cases hn : x = n
      · subst hn
        rw [List.count_cons_self, ih seen, if_pos hx, List.count_cons_self,
          if_pos hx]
      · rw [List.count_cons_of_ne (fun h => hn h.symm), ih seen,
          List.count_cons_of_ne (fun h => hn h.symm)]
    · rw [if_neg hx, ih (x :: seen)]
      by_cases hn : x = n
      · subst hn
        rw [if_pos (List.mem_cons_self x seen), if_neg hx, List.count_cons_self]
        omega
      · by_cases hseen : n ∈ seen
        · rw [if_pos (List.mem_cons_of_mem x hseen), if_pos hseen,
            List.count_cons_of_ne (fun h => hn h.symm)]
        · rw [if_neg (fun hmem =>
              (List.mem_cons.mp hmem).elim (fun he => hn he.symm) hseen),
            if_neg hseen, List.count_cons_of_ne (fun h => hn h.symm)]

/-- C7: the validation aggregates the diagnostics of all checks into one
list; the uniqueness check flags exactly the repeated occurrences of
worker-pool names — the number of duplication diagnostics for a name is
its number of occurrences minus one, so the first occurrence is never
flagged and each later occurrence is flagged once. -/
theorem validate_duplicate_names (env : String → String) (c : aks.Config) :
    aks.validate env c =
      aks.checkNotEmptyWorkers c ++ aks.checkWorkerPoolNamesUnique c ++
        aks.checkWorkerPools c ++ aks.checkCredentials env c ++
        aks.checkRequiredFields env c ∧
    aks.checkWorkerPoolNamesUnique c =
      (aks.laterDuplicates [] (c.WorkerPools.map aks.workerPool.Name)).map
        aks.duplicatedDiag ∧
    ∀ n, (aks.laterDuplicates [] (c.WorkerPools.map aks.workerPool.Name)).count n =
      (c.WorkerPools.map aks.workerPool.Name).count n - 1 := by
  refine ⟨rfl, checkNamesUniqueLoop_eq [] c.WorkerPools, fun n => ?_⟩
  simpa using laterDuplicates_count n [] (c.WorkerPools.map aks.workerPool.Name)

theorem countDiag_mem_loop (pools : List aks.workerPool) (w : aks.workerPool)
    (hw : w ∈ pools) (hc : w.Count ≤ 0) :
    aks.countDiag w.Name ∈ aks.checkWorkerPoolsLoop pools := by
  induction pools with
  | nil => cases hw
  | cons x rest ih =>
    rcases List.mem_cons.mp hw with heq | hw2
    · subst heq
      simp [aks.checkWorkerPoolsLoop, hc]
    · simp [aks.checkWorkerPoolsLoop, ih hw2]

/-- C8: a configuration containing a worker pool with a non-positive count
fails validation with a diagnostic whose message contains
"count must be bigger than 0" and names that pool. -/
theorem validate_count_positive (env : String → String) (c : aks.Config)
    (w : aks.workerPool) (hw : w ∈ c.WorkerPools) (hc : w.Count ≤ 0) :
    ∃ d ∈ aks.validate env c, ∃ pre suf : String,
      d.Summary = pre ++ "count must be bigger than 0" ++ suf := by
  refine ⟨aks.countDiag w.Name, ?_, ?_⟩
  · have hmem := countDiag_mem_loop c.WorkerPools w hw hc
    simp only [aks.validate, aks.checkWorkerPools, List.mem_append]
    tauto
  · refine ⟨"pool \x22" ++ w.Name ++ "\x22: ", "", ?_⟩
    rw [String.append_empty]
    apply String.ext
    simp only [aks.countDiag, String.data_append, List.append_assoc]
    congr 2

/-- Witness for C8: a pool of count zero yields a validation diagnostic
containing "count must be bigger than 0". -/
theorem validate_count_positive_witness :
    ∃ d ∈ aks.validate (fun _ => "")
      { WorkerPools := [{ Name := "pool1", Count := 0, VMSize := "Standard_D2" }] },
      ∃ pre suf : String, d.Summary = pre ++ "count must be bigger than 0" ++ suf :=
  validate_count_positive (fun _ => "") _
    { Name := "pool1", Count := 0, VMSize := "Standard_D2" }
    (List.mem_singleton.mpr rfl) (by decide)

/-- C10: kubeconfig resolution applies the best-effort tilde expansion to
the first non-empty entry of the ordered candidate list [flag value,
asset-directory kubeconfig path, KUBECONFIG environment variable, default
path]; the asset-directory candidate is the fixed path inside the asset
directory and is non-empty exactly when the asset directory is non-empty;
hence the environment variable and the default are only consulted when
both the flag and the asset directory are empty. -/
theorem kubeconfig_resolution (expand : String → String)
    (flagValue assetDir envValue : String) :
    cmd.getKubeconfig expand flagValue assetDir envValue =
      expand (cmd.pickString [flagValue, cmd.assetsKubeconfigPath assetDir, envValue,
        cmd.defaultKubeconfigPath]) ∧
    (assetDir ≠ "" → cmd.assetsKubeconfigPath assetDir =
      assetDir ++ "/cluster-assets/auth/kubeconfig") ∧
    (cmd.assetsKubeconfigPath assetDir ≠ "" ↔ assetDir ≠ "") ∧
    (flagValue ≠ "" →
      cmd.getKubeconfig expand flagValue assetDir envValue = expand flagValue) ∧
    (flagValue = "" → assetDir ≠ "" →
      cmd.getKubeconfig expand flagValue assetDir envValue =
        expand (cmd.assetsKubeconfig assetDir)) ∧
    (flagValue = "" → assetDir = "" →
      cmd.getKubeconfig expand flagValue assetDir envValue =
        expand (if envValue ≠ "" then envValue else cmd.defaultKubeconfigPath)) := by
  have hne : ∀ s : String, s ++ "/cluster-assets/auth/kubeconfig" ≠ "" := by
    intro s he
    have hlen := congrArg String.length he
    rw [String.length_append] at hlen
    have h31 : ("/cluster-assets/auth/kubeconfig" : String).length = 31 := rfl
    have h0 : ("" : String).length = 0 := rfl
    omega
  refine ⟨rfl, fun h => ?_, ⟨fun h1 h2 => ?_, fun h2 => ?_⟩, fun h => ?_,
    fun h1 h2 => ?_, fun h1 h2 => ?_⟩
  · simp [cmd.assetsKubeconfigPath, cmd.assetsKubeconfig, h]
  · exact h1 (by simp [cmd.assetsKubeconfigPath, h2])
  · simp only [cmd.assetsKubeconfigPath, if_pos h2, cmd.assetsKubeconfig]
    exact hne assetDir
  · simp [cmd.getKubeconfig, cmd.pickString, h]
  · have hp : cmd.assetsKubeconfigPath assetDir = cmd.assetsKubeconfig assetDir := by
      simp [cmd.assetsKubeconfigPath, h2]
    simp [cmd.getKubeconfig, cmd.pickString, h1, hp, cmd.assetsKubeconfig,
      hne assetDir]
  · have hp : cmd.assetsKubeconfigPath assetDir = "" := by
      simp [cmd.assetsKubeconfigPath, h2]
    by_cases henv : envValue = "" <;>
      simp [cmd.getKubeconfig, cmd.pickString, h1, hp, henv, cmd.defaultKubeconfigPath]

/-- Witness for C10: with a non-empty flag value, the flag wins over all
other candidates. -/
theorem kubeconfig_resolution_witness :
    cmd.getKubeconfig id "/tmp/kubeconfig" "/assets" "/env/kubeconfig" =
      id "/tmp/kubeconfig" :=
  (kubeconfig_resolution id "/tmp/kubeconfig" "/assets" "/env/kubeconfig").2.2.2.1
    (by decide)

theorem mapGet_mapSet (m : StrMap) (k v k' : String) :
    mapGet (mapSet m k v) k' = if k = k' then some v else mapGet m k' := by
  induction m with
  | nil => simp [mapSet, mapGet]
  | cons kv t ih =>
    obtain ⟨k0, v0⟩ := kv
    by_cases h0 : k0 = k
    · subst h0
      simp only [mapSet, if_pos rfl]
      by_cases h1 : k0 = k' <;> simp [mapGet, h1]
    · simp only [mapSet, if_neg h0]
      by_cases h1 : k0 = k'
      · subst h1
        rw [if_neg (fun h => h0 h.symm)]
        simp [mapGet]
      · simp [mapGet, h1, ih]

theorem mapGet_eq_none_of_not_mem (l : StrMap) (k : String)
    (h : k ∉ l.map Prod.fst) : mapGet l k = none := by
  induction l with
  | nil => rfl
  | cons kv t ih =>
    obtain ⟨k0, v0⟩ := kv
    simp only [List.map_cons, List.mem_cons] at h
    push_neg at h
    simp only [mapGet]
    rw [if_neg (fun hh => h.1 hh.symm)]
    exact ih h.2

theorem mapGet_mapMerge (base over : StrMap) (k : String)
    (hnd : (over.map Prod.fst).Nodup) :
    mapGet (mapMerge base over) k =
      match mapGet over k with
      | some v => some v
      | none => mapGet base k := by
  induction over generalizing base with
  | nil => simp [mapMerge, mapGet]
  | cons kv t ih =>
    obtain ⟨k0, v0⟩ := kv
    simp only [List.map_cons, List.nodup_cons] at hnd
    obtain ⟨hk0, hndt⟩ := hnd
    have hstep : mapMerge base ((k0, v0) :: t) = mapMerge (mapSet base k0 v0) t := rfl
    rw [hstep, ih (mapSet base k0 v0) hndt]
    by_cases h1 : k0 = k
    · subst h1
      have hnone : mapGet t k0 = none := mapGet_eq_none_of_not_mem t k0 hk0
      rw [hnone]
      simp [mapGet, mapGet_mapSet]
    · cases hc : mapGet t k with
      | none => simp [hc, mapGet, h1, mapGet_mapSet, fun h => h1 h]
      | some v => simp [hc, mapGet, h1]

theorem mapGet_filterLoko_not_loko (m : StrMap) (k : String)
    (h : k8sutil.containsLoko k = false) :
    mapGet (k8sutil.filterLoko m) k = mapGet m k := by
  induction m with
  | nil => rfl
  | cons kv t ih =>
    obtain ⟨k0, v0⟩ := kv
    simp only [k8sutil.filterLoko, List.filter_cons] at *
    by_cases h0 : k0 = k
    · subst h0
      simp [h, mapGet, ih]
    · by_cases hl : k8sutil.containsLoko k0 <;> simp [hl, mapGet, h0, ih]

theorem mapGet_filterLoko_loko (m : StrMap) (k : String)
    (h : k8sutil.containsLoko k = true) :
    mapGet (k8sutil.filterLoko m) k = none := by
  induction m with
  | nil => rfl
  | cons kv t ih =>
    obtain ⟨k0, v0⟩ := kv
    simp only [k8sutil.filterLoko, List.filter_cons] at *
    by_cases h0 : k0 = k
    · subst h0
      simp [h, ih]
    · by_cases hl : k8sutil.containsLoko k0 <;> simp [hl, mapGet, h0, ih]

theorem filterLoko_keys_nodup (m : StrMap) (h : (m.map Prod.fst).Nodup) :
    ((k8sutil.filterLoko m).map Prod.fst).Nodup :=
  h.sublist ((List.filter_sublist m).map Prod.fst)

/-- C9: `UpdateNamespace` preserves every pre-existing label and annotation
whose key does not contain "lokomotive.kinvolk.io" unchanged in the
updated namespace object, while at keys containing "lokomotive.kinvolk.io"
the updated object holds exactly the Lokomotive-supplied entries (the
pre-existing ones are removed). -/
theorem updateNamespace_frame (ns existing : k8sutil.LokoNamespace)
    (hL : (existing.Labels.map Prod.fst).Nodup)
    (hA : (existing.Annotations.map Prod.fst).Nodup)
    (hn : ns.Name ≠ "") :
    k8sutil.UpdateNamespace ns existing = Except.ok
      { Name := ns.Name
        Labels := mapMerge ns.Labels (k8sutil.filterLoko existing.Labels)
        Annotations :=
          mapMerge ns.Annotations (k8sutil.filterLoko existing.Annotations) } ∧
    (∀ k v, k8sutil.containsLoko k = false → mapGet existing.Labels k = some v →
      mapGet (mapMerge ns.Labels (k8sutil.filterLoko existing.Labels)) k = some v) ∧
    (∀ k v, k8sutil.containsLoko k = false →
      mapGet existing.Annotations k = some v →
      mapGet (mapMerge ns.Annotations (k8sutil.filterLoko existing.Annotations)) k =
        some v) ∧
    (∀ k, k8sutil.containsLoko k = true →
      mapGet (mapMerge ns.Labels (k8sutil.filterLoko existing.Labels)) k =
        mapGet ns.Labels k) ∧
    (∀ k, k8sutil.containsLoko k = true →
      mapGet (mapMerge ns.Annotations (k8sutil.filterLoko existing.Annotations)) k =
        mapGet ns.Annotations k) := by
  refine ⟨by simp [k8sutil.UpdateNamespace, hn], fun k v hk hv => ?_,
    fun k v hk hv => ?_, fun k hk => ?_, fun k hk => ?_⟩
  · rw [mapGet_mapMerge _ _ _ (filterLoko_keys_nodup _ hL),
      mapGet_filterLoko_not_loko _ _ hk, hv]
  · rw [mapGet_mapMerge _ _ _ (filterLoko_keys_nodup _ hA),
      mapGet_filterLoko_not_loko _ _ hk, hv]
  · rw [mapGet_mapMerge _ _ _ (filterLoko_keys_nodup _ hL),
      mapGet_filterLoko_loko _ _ hk]
  · rw [mapGet_mapMerge _ _ _ (filterLoko_keys_nodup _ hA),
      mapGet_filterLoko_loko _ _ hk]

/-- Witness for C9: a pre-existing user label survives the update while a
pre-existing Lokomotive-owned label is replaced by the supplied ones. -/
theorem updateNamespace_frame_witness :
    mapGet (mapMerge [("lokomotive.kinvolk.io/name", "monitoring")]
      (k8sutil.filterLoko [("team", "obs"), ("lokomotive.kinvolk.io/old", "x")]))
      "team" = some "obs" :=
  (updateNamespace_frame
    ⟨"monitoring", [("lokomotive.kinvolk.io/name", "monitoring")], []⟩
    ⟨"monitoring", [("team", "obs"), ("lokomotive.kinvolk.io/old", "x")], []⟩
    (by decide) (by decide) (by decide)).2.1 "team" "obs" (by decide) rfl
